import Mathlib

/-!
Verification of the ordering-resolver core of `webstack_django_sorting`
(`webstack_django_sorting/templatetags/sorting_tags.py`, class `SortedDataNode`).

The embedding models:
  * records as finite association lists of attribute names to integer values
    (Python's duck-typed `hasattr`/`attrgetter` access, with the attribute
    value type fixed to an ordered type so that record comparison is the
    value type's default order, as in the source);
  * a Django queryset as its model's field names plus its record sequence;
    `order_by` is lazy in Django, so backend delegation is modelled as a new
    handle carrying the ordering expression, never evaluated here;
  * Python's `sorted(..., key=attrgetter(name), reverse=rev)` as the unique
    stable sort by the extracted key (Timsort is stable, and a stable sort by
    a total preorder is extensionally unique, so `List.insertionSort` with the
    corresponding total-preorder relation computes the same output);
  * partial accesses (`ordering[0]`, `queryset[0]`) as `Option`-returning
    lookups, so an unguarded access surfaces as `none` at the top level;
  * the exceptions `TemplateSyntaxError`, `AttributeError` and the backend's
    `FieldError` as an explicit error type, and the `except` clause of
    `SortedDataNode.render` as the predicate `caught`.
-/

namespace WebstackDjangoSorting

/-- Attribute names, field names and ordering expressions are character
strings, modelled as lists of characters. -/
abbrev Str := List Char

/-- A record, as seen by the in-memory sorting path: a finite map from
attribute names to attribute values (`hasattr` / `attrgetter` access). -/
structure Record where
  attrs : List (Str × Int)
deriving DecidableEq

/-- Python `hasattr(r, name)`. -/
def hasattrR (r : Record) (name : Str) : Bool :=
  (r.attrs.lookup name).isSome

/-- Python `attrgetter(name)(r)`; the default value is irrelevant because
every use is guarded by `hasattrR` on every record being sorted. -/
def getattrD (r : Record) (name : Str) : Int :=
  (r.attrs.lookup name).getD 0

/-- A Django queryset: the names of the model's fields
(`queryset.model._meta.get_fields()`) and the record sequence obtained by
iterating it. -/
structure QuerySet where
  fieldNames : List Str
  records : List Record
deriving DecidableEq

/-- Python `queryset.exists()`: true exactly when iteration yields records. -/
def QuerySet.existsQ (q : QuerySet) : Bool :=
  !q.records.isEmpty

/-- Python `ordering.find("__") >= 0`: the expression contains the
path-separator `__` as a substring. -/
def containsSep : Str → Bool
  | c1 :: c2 :: rest => (c1 == '_' && c2 == '_') || containsSep (c2 :: rest)
  | _ => false

/-- Whether the expression starts with the descending marker `-`
(Python `ordering[0] == "-"`, total version used in statements). -/
def hasMarker (ordering : Str) : Bool :=
  ordering.head? == some '-'

/-- The field reference left after removing a leading descending marker
(Python `ordering[1:] if ordering[0] == "-" else ordering`, total version
used in statements). -/
def stripMarker (ordering : Str) : Str :=
  if hasMarker ordering then ordering.tail else ordering

/-- The comparison used by `sorted(..., key=attrgetter(name), reverse=rev)`:
for `rev = false` ascending by the attribute value, for `rev = true` the
reversed comparison (Python's `reverse=True`, which stays stable on equal
keys). -/
def keyLE (name : Str) (rev : Bool) (a b : Record) : Prop :=
  if rev then getattrD b name ≤ getattrD a name
  else getattrD a name ≤ getattrD b name

instance keyLE.decRel (name : Str) (rev : Bool) : DecidableRel (keyLE name rev) := by
  intro a b
  unfold keyLE
  exact inferInstance

instance keyLE.isTotal (name : Str) (rev : Bool) : IsTotal Record (keyLE name rev) := by
  constructor
  intro a b
  unfold keyLE
  cases rev <;> simp <;> omega

instance keyLE.isTrans (name : Str) (rev : Bool) : IsTrans Record (keyLE name rev) := by
  constructor
  intro a b c
  unfold keyLE
  cases rev <;> simp <;> omega

/-- The output of Python's stable `sorted(records, key=attrgetter(name),
reverse=rev)`: the stable sort of `records` by the extracted key. A stable
sort by a total preorder is extensionally unique, so the insertion sort
computes exactly Timsort's output. -/
def sortedRecords (name : Str) (rev : Bool) (records : List Record) : List Record :=
  records.insertionSort (keyLE name rev)

/-- Python `sorted(records, key=attrgetter(name), reverse=rev)` including its
failure behaviour: `attrgetter` raises `AttributeError` (here `none`) as soon
as any record lacks the attribute, and nothing is returned in that case. -/
def sortedPython (records : List Record) (name : Str) (rev : Bool) : Option (List Record) :=
  if records.all (fun r => hasattrR r name) then
    some (sortedRecords name rev records)
  else
    none

/-- The exceptions that can cross `sort_queryset`'s boundary:
`template.TemplateSyntaxError`, `AttributeError`, and the backend's
`FieldError` raised when a delegated ordering is invalid. -/
inductive SortError where
  | templateSyntaxError
  | attributeError
  | fieldError
deriving DecidableEq

/-- What `sort_queryset` can hand back to `render`: the original queryset
unchanged, a delegated handle `queryset.order_by(ordering)` carrying the full
ordering expression, or a materialized Python list. -/
inductive SortedData where
  | qsUnchanged (q : QuerySet)
  | qsOrdered (q : QuerySet) (ordering : Str)
  | pylist (records : List Record)
deriving DecidableEq

/-- Result of `sort_queryset`: a value or a raised exception. -/
inductive SortResult where
  | ok (d : SortedData)
  | error (e : SortError)
deriving DecidableEq

/-- `SortedDataNode.need_python_sorting`. Returns `none` for the unguarded
partial access `ordering[0]` on an empty expression (an `IndexError`, which
the caller must prevent). -/
def need_python_sorting (queryset : QuerySet) (ordering : Str) : Option Bool :=
  if containsSep ordering then
    some false
  else
    match ordering.head? with
    | none => none
    | some c0 =>
      let field := if c0 = '-' then ordering.tail else ordering
      some (decide (field ∉ queryset.fieldNames))

/-- The pure-Python fallback branch of `SortedDataNode.sort_queryset`
(lines 134-137): probe the first record with `hasattr`, then either return
`sorted(queryset, key=attrgetter(name), reverse=rev)` or raise
`AttributeError`. The outer `none` is the unguarded `queryset[0]` access. -/
def pythonSortBranch (queryset : QuerySet) (name : Str) (rev : Bool) : Option SortResult :=
  match queryset.records.head? with
  | none => none
  | some r0 =>
    if hasattrR r0 name then
      match sortedPython queryset.records name rev with
      | some rs => some (.ok (.pylist rs))
      | none => some (.error .attributeError)
    else
      some (.error .attributeError)

/-- `SortedDataNode.sort_queryset`. `none` means an unguarded partial access
failed; `some` is the Python-level result (normal return or raised
exception). -/
def sort_queryset (queryset : QuerySet) (ordering : Str) : Option SortResult :=
  if ordering.isEmpty then
    some (.ok (.qsUnchanged queryset))
  else if queryset.existsQ then
    match need_python_sorting queryset ordering with
    | none => none
    | some true =>
      match ordering.head? with
      | none => none
      | some c0 =>
        if c0 = '-' then
          if ordering.length = 1 then
            some (.error .templateSyntaxError)
          else
            pythonSortBranch queryset ordering.tail true
        else
          pythonSortBranch queryset ordering false
    | some false =>
      some (.ok (.qsOrdered queryset ordering))
  else
    some (.ok (.qsUnchanged queryset))

/-- The `except (template.TemplateSyntaxError, AttributeError)` clause of
`SortedDataNode.render`: exactly which exception classes are caught at the
resolution boundary. -/
def caught : SortError → Bool
  | .templateSyntaxError => true
  | .attributeError => true
  | .fieldError => false

/-- Observable outcome of `SortedDataNode.render`: the context variable is
set to some sorted data, an `Http404` is raised, or an uncaught exception
propagates to the caller unchanged. -/
inductive RenderOutcome where
  | stored (d : SortedData)
  | http404
  | raised (e : SortError)
deriving DecidableEq

/-- The `try/except` boundary of `SortedDataNode.render` applied to the
result of sorting: a normal result is stored; a caught exception is turned
into `Http404` when `INVALID_FIELD_RAISES_404` is set and otherwise swallowed
by storing the original queryset; any other exception propagates unchanged. -/
def render_result (raises404 : Bool) (queryset : QuerySet) (res : SortResult) : RenderOutcome :=
  match res with
  | .ok d => .stored d
  | .error e =>
    if caught e then
      if raises404 then .http404 else .stored (.qsUnchanged queryset)
    else
      .raised e

/-- `SortedDataNode.render` for a resolved queryset and ordering expression
under the configuration flag `INVALID_FIELD_RAISES_404`. -/
def render (raises404 : Bool) (queryset : QuerySet) (ordering : Str) : Option RenderOutcome :=
  (sort_queryset queryset ordering).map (render_result raises404 queryset)

/-! Concrete data used to witness the claim theorems. -/

/-- The attribute name `rank`, not a model field below. -/
def rankName : Str := ['r', 'a', 'n', 'k']

/-- The model field name `id`. -/
def idName : Str := ['i', 'd']

/-- A compound-path expression `author__id`. -/
def compoundExpr : Str := ['a', 'u', 't', 'h', 'o', 'r', '_', '_', 'i', 'd']

/-- A record with attribute `rank = 2`. -/
def recA : Record := ⟨[(rankName, 2)]⟩

/-- A record with attribute `rank = 1`. -/
def recB : Record := ⟨[(rankName, 1)]⟩

/-- A record with attribute `id = 5` and no `rank`. -/
def recC : Record := ⟨[(idName, 5)]⟩

/-- A one-record queryset over a model with field `id`. -/
def qsNative : QuerySet := ⟨[idName], [recC]⟩

/-- A two-record queryset whose records expose the non-field attribute
`rank`. -/
def qsPy : QuerySet := ⟨[idName], [recA, recB]⟩

/-- An empty queryset over a model with field `id`. -/
def qsEmpty : QuerySet := ⟨[idName], []⟩

/-! Helper lemmas shared by the claim theorems. -/

theorem containsSep_ne_nil {ordering : Str} (h : containsSep ordering = true) :
    ordering ≠ [] := by
  intro he
  subst he
  simp [containsSep] at h

theorem nps_of_sep (queryset : QuerySet) {ordering : Str}
    (h : containsSep ordering = true) :
    need_python_sorting queryset ordering = some false := by
  simp [need_python_sorting, h]

theorem nps_of_nosep (queryset : QuerySet) {c : Char} {cs : Str}
    (h : containsSep (c :: cs) = false) :
    need_python_sorting queryset (c :: cs)
      = some (decide (stripMarker (c :: cs) ∉ queryset.fieldNames)) := by
  simp only [need_python_sorting, h, Bool.false_eq_true, if_false, List.head?_cons,
    stripMarker, hasMarker]
  by_cases hc : c = '-' <;> simp [hc]

/-- Claim C1: a non-empty separator-free expression whose stripped field is a
native model field is delegated to the backend as `order_by` with the full
original expression, and the in-memory path is never taken. -/
theorem backend_delegation_for_native_fields (queryset : QuerySet) (ordering : Str)
    (hne : ordering ≠ []) (hsep : containsSep ordering = false)
    (hmem : stripMarker ordering ∈ queryset.fieldNames) :
    (queryset.records ≠ [] →
      sort_queryset queryset ordering = some (.ok (.qsOrdered queryset ordering))) ∧
    (∀ rs : List Record, sort_queryset queryset ordering ≠ some (.ok (.pylist rs))) := by
  obtain ⟨c, cs, rfl⟩ : ∃ c cs, ordering = c :: cs := by
    cases ordering with
    | nil => exact absurd rfl hne
    | cons c cs => exact ⟨c, cs, rfl⟩
  have hnps := nps_of_nosep queryset hsep
  rw [decide_eq_false (not_not_intro hmem)] at hnps
  constructor
  · intro hrec
    simp [sort_queryset, QuerySet.existsQ, List.isEmpty_iff, hrec, hnps]
  · intro rs
    by_cases hrec : queryset.records = []
    · simp [sort_queryset, QuerySet.existsQ, List.isEmpty_iff, hrec]
    · simp [sort_queryset, QuerySet.existsQ, List.isEmpty_iff, hrec, hnps]

/-- Witness for C1: sorting `qsNative` by the native field `id`. -/
theorem backend_delegation_for_native_fields_witness :
    (idName ≠ [] ∧ containsSep idName = false ∧ stripMarker idName ∈ qsNative.fieldNames
      ∧ qsNative.records ≠ []) ∧
    sort_queryset qsNative idName = some (.ok (.qsOrdered qsNative idName)) :=
  ⟨⟨by decide, by decide, by decide, by decide⟩,
    (backend_delegation_for_native_fields qsNative idName (by decide) (by decide)
      (by decide)).1 (by decide)⟩

/-- Claim C2: any expression containing the path-separator `__` is always
delegated to the backend by the full original expression, whatever the field
names are, and the in-memory path is never taken. -/
theorem backend_delegation_for_compound_paths (queryset : QuerySet) (ordering : Str)
    (hsep : containsSep ordering = true) :
    (queryset.records ≠ [] →
      sort_queryset queryset ordering = some (.ok (.qsOrdered queryset ordering))) ∧
    (∀ rs : List Record, sort_queryset queryset ordering ≠ some (.ok (.pylist rs))) := by
  have hne : ordering ≠ [] := containsSep_ne_nil hsep
  have hnps := nps_of_sep queryset hsep
  have hoe : ordering.isEmpty = false := by
    cases ordering with
    | nil => exact absurd rfl hne
    | cons c cs => rfl
  constructor
  · intro hrec
    simp [sort_queryset, QuerySet.existsQ, List.isEmpty_iff, hoe, hrec, hnps]
  · intro rs
    by_cases hrec : queryset.records = []
    · simp [sort_queryset, QuerySet.existsQ, List.isEmpty_iff, hoe, hrec]
    · simp [sort_queryset, QuerySet.existsQ, List.isEmpty_iff, hoe, hrec, hnps]

/-- Witness for C2: sorting `qsNative` by the compound path `author__id`. -/
theorem backend_delegation_for_compound_paths_witness :
    (containsSep compoundExpr = true ∧ qsNative.records ≠ []) ∧
    sort_queryset qsNative compoundExpr
      = some (.ok (.qsOrdered qsNative compoundExpr)) :=
  ⟨⟨by decide, by decide⟩,
    (backend_delegation_for_compound_paths qsNative compoundExpr (by decide)).1 (by decide)⟩

/-- Claim C3: on a non-empty collection, a separator-free expression whose
stripped field is not a model field but is an attribute carried by every
record yields a freshly materialized list that is length-preserving, a
permutation of the input, sorted by the attribute in the direction given by
the marker, and stable on equal keys. -/
theorem inmemory_sort_correct (queryset : QuerySet) (ordering : Str)
    (hrec : queryset.records ≠ [])
    (hsep : containsSep ordering = false)
    (hnf : stripMarker ordering ∉ queryset.fieldNames)
    (hfield : stripMarker ordering ≠ [])
    (hattr : ∀ r ∈ queryset.records, hasattrR r (stripMarker ordering) = true) :
    sort_queryset queryset ordering
      = some (.ok (.pylist
          (sortedRecords (stripMarker ordering) (hasMarker ordering) queryset.records))) ∧
    (sortedRecords (stripMarker ordering) (hasMarker ordering) queryset.records).length
      = queryset.records.length ∧
    (sortedRecords (stripMarker ordering) (hasMarker ordering) queryset.records).Perm
      queryset.records ∧
    (sortedRecords (stripMarker ordering) (hasMarker ordering) queryset.records).Sorted
      (keyLE (stripMarker ordering) (hasMarker ordering)) ∧
    (∀ a b : Record, List.Sublist [a, b] queryset.records →
      getattrD a (stripMarker ordering) = getattrD b (stripMarker ordering) →
      List.Sublist [a, b]
        (sortedRecords (stripMarker ordering) (hasMarker ordering) queryset.records)) := by
  refine ⟨?_, ?_, ?_, ?_, ?_⟩
  · obtain ⟨c, cs, rfl⟩ : ∃ c cs, ordering = c :: cs := by
      cases ordering with
      | nil => exact absurd (by simp [stripMarker, hasMarker]) hfield
      | cons c cs => exact ⟨c, cs, rfl⟩
    have hnps := nps_of_nosep queryset hsep
    rw [decide_eq_true hnf] at hnps
    obtain ⟨r0, rest, hr⟩ : ∃ r0 rest, queryset.records = r0 :: rest := by
      cases hq : queryset.records with
      | nil => exact absurd hq hrec
      | cons r0 rest => exact ⟨r0, rest, rfl⟩
    have hall : queryset.records.all (fun r => hasattrR r (stripMarker (c :: cs))) = true := by
      rw [List.all_eq_true]
      intro r hrm
      exact hattr r hrm
    have hr0 : hasattrR r0 (stripMarker (c :: cs)) = true :=
      hattr r0 (by rw [hr]; exact List.mem_cons_self r0 rest)
    by_cases hc : c = '-'
    · subst hc
      have hsm : stripMarker ('-' :: cs) = cs := by simp [stripMarker, hasMarker]
      have hhm : hasMarker ('-' :: cs) = true := by simp [hasMarker]
      have hcs : cs ≠ [] := by
        rw [hsm] at hfield
        exact hfield
      have hlen : ('-' :: cs).length ≠ 1 := by
        simp only [List.length_cons, ne_eq, Nat.add_left_eq_self]
        intro h0
        exact hcs (List.eq_nil_of_length_eq_zero h0)
      rw [hsm] at hall hr0
      simp [sort_queryset, QuerySet.existsQ, List.isEmpty_iff, hrec, hnps, hlen, hcs,
        pythonSortBranch, hr, hr0, sortedPython, hr ▸ hall, hsm, hhm]
    · have hsm : stripMarker (c :: cs) = c :: cs := by simp [stripMarker, hasMarker, hc]
      have hhm : hasMarker (c :: cs) = false := by simp [hasMarker, hc]
      rw [hsm] at hall hr0
      simp [sort_queryset, QuerySet.existsQ, List.isEmpty_iff, hrec, hnps, hc,
        pythonSortBranch, hr, hr0, sortedPython, hr ▸ hall, hsm, hhm]
  · unfold sortedRecords
    exact List.length_insertionSort _ _
  · unfold sortedRecords
    exact List.perm_insertionSort _ _
  · unfold sortedRecords
    exact List.sorted_insertionSort _ _
  · intro a b hsub heq
    have hab : keyLE (stripMarker ordering) (hasMarker ordering) a b := by
      unfold keyLE
      cases hasMarker ordering <;> simp [heq]
    unfold sortedRecords
    exact List.pair_sublist_insertionSort hab hsub

/-- Witness for C3: sorting `qsPy` by the non-field attribute `rank` swaps
the two records into ascending rank order. -/
theorem inmemory_sort_correct_witness :
    (qsPy.records ≠ [] ∧ containsSep rankName = false
      ∧ stripMarker rankName ∉ qsPy.fieldNames ∧ stripMarker rankName ≠ []
      ∧ ∀ r ∈ qsPy.records, hasattrR r (stripMarker rankName) = true) ∧
    sort_queryset qsPy rankName
      = some (.ok (.pylist (sortedRecords (stripMarker rankName) (hasMarker rankName)
          qsPy.records))) :=
  ⟨⟨by decide, by decide, by decide, by decide, by decide⟩,
    (inmemory_sort_correct qsPy rankName (by decide) (by decide) (by decide) (by decide)
      (by decide)).1⟩

/-- Claim C4: on a non-empty collection (of a model whose fields all have
non-empty names, as in Django), the marker-only expression `-` raises
`TemplateSyntaxError` instead of producing a sorted result. -/
theorem marker_only_expression_is_invalid (queryset : QuerySet)
    (hrec : queryset.records ≠ [])
    (hwf : ([] : Str) ∉ queryset.fieldNames) :
    sort_queryset queryset ['-'] = some (.error .templateSyntaxError) := by
  have hnps := @nps_of_nosep queryset '-' [] (by rfl)
  have hsm : stripMarker ['-'] = [] := by simp [stripMarker, hasMarker]
  rw [hsm, decide_eq_true hwf] at hnps
  simp [sort_queryset, QuerySet.existsQ, List.isEmpty_iff, hrec, hnps]

/-- Witness for C4: the marker-only expression on `qsNative`. -/
theorem marker_only_expression_is_invalid_witness :
    (qsNative.records ≠ [] ∧ ([] : Str) ∉ qsNative.fieldNames) ∧
    sort_queryset qsNative ['-'] = some (.error .templateSyntaxError) :=
  ⟨⟨by decide, by decide⟩,
    marker_only_expression_is_invalid qsNative (by decide) (by decide)⟩

/-- Claim C5: when the in-memory path is selected and the first record lacks
the comparison key, `sort_queryset` raises `AttributeError` and returns no
(partially) sorted sequence. -/
theorem missing_attribute_raises (queryset : QuerySet) (ordering : Str) (r0 : Record)
    (hhead : queryset.records.head? = some r0)
    (hsep : containsSep ordering = false)
    (hnf : stripMarker ordering ∉ queryset.fieldNames)
    (hfield : stripMarker ordering ≠ [])
    (hmiss : hasattrR r0 (stripMarker ordering) = false) :
    sort_queryset queryset ordering = some (.error .attributeError) := by
  obtain ⟨c, cs, rfl⟩ : ∃ c cs, ordering = c :: cs := by
    cases ordering with
    | nil => exact absurd (by simp [stripMarker, hasMarker]) hfield
    | cons c cs => exact ⟨c, cs, rfl⟩
  have hrec : queryset.records ≠ [] := by
    intro h0
    rw [h0] at hhead
    exact Option.noConfusion hhead
  have hnps := nps_of_nosep queryset hsep
  rw [decide_eq_true hnf] at hnps
  by_cases hc : c = '-'
  · subst hc
    have hsm : stripMarker ('-' :: cs) = cs := by simp [stripMarker, hasMarker]
    have hcs : cs ≠ [] := by
      rw [hsm] at hfield
      exact hfield
    have hlen : ('-' :: cs).length ≠ 1 := by
      simp only [List.length_cons, ne_eq, Nat.add_left_eq_self]
      intro h0
      exact hcs (List.eq_nil_of_length_eq_zero h0)
    rw [hsm] at hmiss
    simp [sort_queryset, QuerySet.existsQ, List.isEmpty_iff, hrec, hnps, hlen, hcs,
      pythonSortBranch, hhead, hmiss]
  · have hsm : stripMarker (c :: cs) = c :: cs := by simp [stripMarker, hasMarker, hc]
    rw [hsm] at hmiss
    simp [sort_queryset, QuerySet.existsQ, List.isEmpty_iff, hrec, hnps, hc,
      pythonSortBranch, hhead, hmiss]

/-- Witness for C5: sorting `qsNative` by `rank`, which `recC` lacks. -/
theorem missing_attribute_raises_witness :
    (qsNative.records.head? = some recC ∧ containsSep rankName = false
      ∧ stripMarker rankName ∉ qsNative.fieldNames ∧ stripMarker rankName ≠ []
      ∧ hasattrR recC (stripMarker rankName) = false) ∧
    sort_queryset qsNative rankName = some (.error .attributeError) :=
  ⟨⟨by decide, by decide, by decide, by decide, by decide⟩,
    missing_attribute_raises qsNative rankName recC (by decide) (by decide) (by decide)
      (by decide) (by decide)⟩

/-- Claim C6: an empty ordering expression is the identity transform on any
collection, raising no error. -/
theorem empty_expression_is_identity (queryset : QuerySet) :
    sort_queryset queryset [] = some (.ok (.qsUnchanged queryset)) := by
  simp [sort_queryset]

/-- Claim C7: an empty input collection is returned unchanged with no error,
whatever the ordering expression is (including invalid ones). -/
theorem empty_collection_unchanged (queryset : QuerySet) (ordering : Str)
    (hrec : queryset.records = []) :
    sort_queryset queryset ordering = some (.ok (.qsUnchanged queryset)) := by
  cases ordering with
  | nil => simp [sort_queryset]
  | cons c cs => simp [sort_queryset, QuerySet.existsQ, hrec]

/-- Witness for C7: the empty queryset with the invalid marker-only
expression. -/
theorem empty_collection_unchanged_witness :
    qsEmpty.records = [] ∧
    sort_queryset qsEmpty ['-'] = some (.ok (.qsUnchanged qsEmpty)) :=
  ⟨by decide, empty_collection_unchanged qsEmpty ['-'] (by decide)⟩

/-- Claim C8: a classified failure is decided exactly by the configuration:
with `INVALID_FIELD_RAISES_404` set an `Http404` is raised, otherwise the
error is swallowed and the original queryset is stored in its prior order. -/
theorem classified_failure_policy (queryset : QuerySet) (ordering : Str) (e : SortError)
    (herr : sort_queryset queryset ordering = some (.error e))
    (hcaught : caught e = true) :
    render true queryset ordering = some .http404 ∧
    render false queryset ordering = some (.stored (.qsUnchanged queryset)) := by
  constructor <;> simp [render, herr, render_result, hcaught]

/-- Witness for C8: the marker-only expression on `qsNative` raises
`TemplateSyntaxError`, which the two configurations resolve differently. -/
theorem classified_failure_policy_witness :
    (sort_queryset qsNative ['-'] = some (.error .templateSyntaxError)
      ∧ caught .templateSyntaxError = true) ∧
    render true qsNative ['-'] = some .http404 ∧
    render false qsNative ['-'] = some (.stored (.qsUnchanged qsNative)) :=
  ⟨⟨by decide, by decide⟩,
    classified_failure_policy qsNative ['-'] .templateSyntaxError (by decide) (by decide)⟩

/-- Claim C9: the resolution boundary catches exactly the two classified
error kinds; a backend-delegation failure (`FieldError`) passes through the
`try/except` unchanged, never becoming an `Http404` or the unsorted
fallback. -/
theorem only_classified_errors_caught (raises404 : Bool) (queryset : QuerySet)
    (e : SortError) :
    render_result raises404 queryset (.error e) = .raised e ↔ e = .fieldError := by
  cases e <;> cases raises404 <;> simp [render_result, caught]

/-- Helper for C10: the pure-Python branch never hits its unguarded
`queryset[0]` access when the record list is non-empty. -/
theorem pythonSortBranch_ne_none (queryset : QuerySet) (name : Str) (rev : Bool)
    (hrec : queryset.records ≠ []) :
    pythonSortBranch queryset name rev ≠ none := by
  obtain ⟨r0, rest, hr⟩ : ∃ r0 rest, queryset.records = r0 :: rest := by
    cases hq : queryset.records with
    | nil => exact absurd hq hrec
    | cons a b => exact ⟨a, b, rfl⟩
  simp only [pythonSortBranch, hr, List.head?_cons]
  by_cases h0 : hasattrR r0 name
  · simp only [h0, if_true, sortedPython]
    split
    · simp
    · simp
  · simp [h0]

/-- Claim C10: every partial access in the resolver is guarded: the
`ordering[0]` accesses only happen on a non-empty expression and the
`queryset[0]` access only happens on a non-empty collection, so
`sort_queryset` never fails an access (never returns `none`). -/
theorem partial_accesses_guarded (queryset : QuerySet) (ordering : Str) :
    sort_queryset queryset ordering ≠ none := by
  cases ordering with
  | nil => simp [sort_queryset]
  | cons c cs =>
    by_cases hrec : queryset.records = []
    · simp [sort_queryset, QuerySet.existsQ, hrec]
    · by_cases hsep : containsSep (c :: cs) = true
      · simp [sort_queryset, QuerySet.existsQ, List.isEmpty_iff, hrec,
          nps_of_sep queryset hsep]
      · have hnps := nps_of_nosep queryset (Bool.eq_false_iff.mpr hsep)
        by_cases hmem : stripMarker (c :: cs) ∉ queryset.fieldNames
        · rw [decide_eq_true hmem] at hnps
          by_cases hc : c = '-'
          · subst hc
            by_cases hlen : ('-' :: cs).length = 1
            · simp [sort_queryset, QuerySet.existsQ, List.isEmpty_iff, hrec, hnps, hlen]
            · have hcs : cs ≠ [] := by
                intro h0
                exact hlen (by simp [h0])
              simp [sort_queryset, QuerySet.existsQ, List.isEmpty_iff, hrec, hnps, hlen, hcs,
                pythonSortBranch_ne_none queryset cs true hrec]
          · simp [sort_queryset, QuerySet.existsQ, List.isEmpty_iff, hrec, hnps, hc,
              pythonSortBranch_ne_none queryset (c :: cs) false hrec]
        · rw [decide_eq_false hmem] at hnps
          simp [sort_queryset, QuerySet.existsQ, List.isEmpty_iff, hrec, hnps]

end WebstackDjangoSorting
